import Mathlib

/-!
Verification of the SOL outflow watcher (src/index.js and the two sibling
variants in src/unnamed/).  The development shallowly embeds the
numeric classifiers, its bounded outflow window, the alert state machine of
the main loop, the cursor tracker, and the two transfer-extraction paths.

Amounts in lamports are modelled as integers (`Int`): every lamports value
handled by the program is an exact integer well inside the double-precision
safe range, so `Math.floor`/`%` on doubles coincide with integer division
and remainder.  The floating-point SOL range check is modelled over `ℚ`,
where division by 1e9 is exact.
-/

/-! ## Numeric classifiers (truncating variant, src/index.js lines 68-85) -/

/-- The scaled 4-decimal integer `Math.floor(Math.abs(lamports) / 100000)`
used by both the 4dp-cut formatter and the five-digits rule. -/
def scaled4dpCut (lamports : Int) : Nat :=
  lamports.natAbs / 100000

/-- JavaScript `String.prototype.padStart(4, "0")`. -/
def padStart4Zeros (s : String) : String :=
  if s.length < 4 then String.mk (List.replicate (4 - s.length) '0') ++ s else s

/-- `lamportsToSol4String` (src/index.js lines 68-73): 4-decimal cut-down
rendering `intPart.fracPart` with the fraction left-padded to 4 digits. -/
def lamportsToSol4String (lamports : Int) : String :=
  let scaled := scaled4dpCut lamports
  toString (scaled / 10000) ++ "." ++ padStart4Zeros (toString (scaled % 10000))

/-- `isFiveDigitsLamports_4dpCut` (src/index.js lines 77-80): the truncating
five-digits rule, `floor(|lamports| / 1e5) <= 99999`. -/
def isFiveDigitsLamports_4dpCut (lamports : Int) : Bool :=
  decide (scaled4dpCut lamports ≤ 99999)

/-- `isFiveDigitsTransferLamports` (src/unnamed/part_000 lines 77-83), the
same truncating rule with the redundant `scaled >= 0` conjunct kept. -/
def isFiveDigitsTransferLamports (lamports : Int) : Bool :=
  decide (0 ≤ scaled4dpCut lamports) && decide (scaled4dpCut lamports ≤ 99999)

/-- Configuration surface relevant to classification and the window. -/
structure Config where
  minSol : ℚ
  maxSol : ℚ
  windowOutflows : Nat
  requiredMatch : Nat

/-- `inSolRangeLamports` (src/index.js lines 82-85): the true amount in SOL,
`|lamports| / LAMPORTS_PER_SOL`, must lie within `[MIN_SOL, MAX_SOL]`. -/
def inSolRangeLamports (cfg : Config) (lamports : Int) : Bool :=
  let sol : ℚ := (lamports.natAbs : ℚ) / 1000000000
  decide (cfg.minSol ≤ sol) && decide (sol ≤ cfg.maxSol)

/-! ## Numeric classifiers (exact variant, src/unnamed/part_001 lines 557-585) -/

/-- `LAMPORTS_PER_SOL_4DP` (src/unnamed/part_001 line 557). -/
def LAMPORTS_PER_SOL_4DP : Nat := 100000

/-- `lamportsToSol4ExactString` (src/unnamed/part_001 lines 560-570): returns
the `X.XXXX` string only when the delta is an exact multiple of 1e5 lamports,
otherwise `null` (here `none`).  The `Number.isFinite` guard of the source is
vacuous in the integer model. -/
def lamportsToSol4ExactString (deltaLamports : Int) : Option String :=
  let v := deltaLamports.natAbs
  if v = 0 then none
  else if v % LAMPORTS_PER_SOL_4DP ≠ 0 then none
  else
    let scaled := v / LAMPORTS_PER_SOL_4DP
    some (toString (scaled / 10000) ++ "." ++ padStart4Zeros (toString (scaled % 10000)))

/-- `isFiveDigitsByDestDeltaExact` (src/unnamed/part_001 lines 574-585): the
exact sub-policy, rejecting any delta that is not an exact multiple of 1e5
lamports before applying the `scaled <= 99999` digit rule. -/
def isFiveDigitsByDestDeltaExact (deltaLamports : Int) : Bool :=
  let v := deltaLamports.natAbs
  if v = 0 then false
  else if v % LAMPORTS_PER_SOL_4DP ≠ 0 then false
  else decide (0 ≤ v / LAMPORTS_PER_SOL_4DP) && decide (v / LAMPORTS_PER_SOL_4DP ≤ 99999)

/-! ## Window and alert state (src/index.js lines 38-42, 87-89, 379-389) -/

/-- One persisted outflow record (src/index.js line 40 and lines 379-384). -/
structure OutflowRecord where
  signature : String
  outLamports : Int
  outflowSol4 : String
  ts : Nat
deriving DecidableEq

/-- `makeAlertKey` (src/index.js lines 87-89): join the signatures of the window
with `"|"`. -/
def makeAlertKey (outflows : List OutflowRecord) : String :=
  String.intercalate "|" (outflows.map (fun x => x.signature))

/-- The window insertion step of the main loop (src/index.js lines 379-389):
prepend the new record, then trim to `WINDOW_OUTFLOWS` entries if over. -/
def insertOutflow (cap : Nat) (w : List OutflowRecord) (r : OutflowRecord) :
    List OutflowRecord :=
  let w2 := r :: w
  if cap < w2.length then w2.take cap else w2

/-- Folding a whole batch of insertions (oldest first, as the main loop
iterates `ordered = [...newSigs].reverse()`). -/
def insertMany (cap : Nat) (w : List OutflowRecord) (rs : List OutflowRecord) :
    List OutflowRecord :=
  rs.foldl (insertOutflow cap) w

/-- The persisted state record (src/index.js lines 38-42). -/
structure BotState where
  anchorSig : Option String
  outflows : List OutflowRecord
  lastAlertKey : Option String
deriving DecidableEq

/-- `considered` (src/index.js line 402): window entries passing the range
check. -/
def consideredOutflows (cfg : Config) (w : List OutflowRecord) : List OutflowRecord :=
  w.filter (fun x => inSolRangeLamports cfg x.outLamports)

/-- `matches` (src/index.js line 403): considered entries also passing the
truncating five-digits rule. -/
def matchedOutflows (cfg : Config) (w : List OutflowRecord) : List OutflowRecord :=
  (consideredOutflows cfg w).filter (fun x => isFiveDigitsLamports_4dpCut x.outLamports)

/-- Observable events of one evaluation phase: state persisted to disk
(`saveState`), and the single dispatch attempt (`sendDiscordText` inside
`try`/`catch`, so a failed delivery does not abort the cycle). -/
inductive CycleEvent where
  | persistEvt (st : BotState)
  | dispatchEvt (deliveryOk : Bool)
deriving DecidableEq

/-- Recognizes the dispatch attempt among the events of a cycle. -/
def isDispatchEvt : CycleEvent → Bool
  | CycleEvent.dispatchEvt _ => true
  | _ => false

/-- Number of dispatch attempts in an event list. -/
def dispatchCount (evts : List CycleEvent) : Nat :=
  (evts.filter isDispatchEvt).length

/-- The evaluation phase of one cycle (src/index.js lines 400-485): when the
window is full and the match tally reaches `REQUIRED_MATCH` with a fresh
alert key, the key is persisted as sent, dispatch is attempted (its outcome
`deliveryOk` is swallowed by `catch`), and the window is reset with the
cursor re-anchored to `newestSig`.  Otherwise the state is untouched. -/
def evalCycleTrace (cfg : Config) (newestSig : Option String) (deliveryOk : Bool)
    (st : BotState) : BotState × List CycleEvent :=
  if cfg.windowOutflows ≤ st.outflows.length then
    if cfg.requiredMatch ≤ (matchedOutflows cfg st.outflows).length then
      let alertKey := makeAlertKey st.outflows
      if st.lastAlertKey ≠ some alertKey then
        let stMid : BotState := { st with lastAlertKey := some alertKey }
        let stFin : BotState :=
          { anchorSig := newestSig, outflows := [], lastAlertKey := none }
        (stFin,
          [CycleEvent.persistEvt stMid, CycleEvent.dispatchEvt deliveryOk,
            CycleEvent.persistEvt stFin])
      else (st, [])
    else (st, [])
  else (st, [])

/-! ## Cursor tracker (src/index.js lines 305-325, 342-348, 359-360) -/

/-- `fetchNewestSignature` (src/index.js lines 305-308), applied to the
newest-first signature list returned by the upstream query. -/
def fetchNewestSignature (sigs : List String) : Option String :=
  sigs.head?

/-- `fetchNewSignatures` (src/index.js lines 310-325), applied to the
newest-first signature list `sigs` of the poll: empty when the poll or the
stored cursor is empty, otherwise the prefix strictly newer than the
cursor. -/
def fetchNewSignatures (sigs : List String) (anchorSig : Option String) :
    List String :=
  if sigs.isEmpty then []
  else
    match anchorSig with
    | none => []
    | some a => sigs.takeWhile (fun s => decide (s ≠ a))

/-- The cursor advance of the poll phase (src/index.js lines 359-360): move
to the newest fetched signature when the poll returned anything new. -/
def advanceCursor (sigs : List String) (anchor : Option String) : Option String :=
  match fetchNewSignatures sigs anchor with
  | [] => anchor
  | s :: _ => some s

/-! ## One full cycle of the main loop (src/index.js lines 354-496) -/

/-- External inputs consumed by one cycle: the poll result, the classified
outflow lamports and timestamp per signature (the outcome of the
`getTransaction` + decode/fallback pipeline), the poll backing the
post-trigger re-anchor, and the delivery outcome. -/
structure CycleInput where
  sigs : List String
  outOf : String → Int
  tsOf : String → Nat
  resetSigs : List String
  deliveryOk : Bool

/-- The insertion loop of the poll phase (src/index.js lines 362-390):
process fetched signatures oldest-to-newest, skipping non-outflows
(`outLamports <= 0`) and inserting a record for each outflow. -/
def insertPhase (cap : Nat) (inp : CycleInput) (fresh : List String)
    (w : List OutflowRecord) : List OutflowRecord :=
  fresh.reverse.foldl
    (fun acc sig =>
      let l := inp.outOf sig
      if l ≤ 0 then acc
      else insertOutflow cap acc
        { signature := sig, outLamports := l,
          outflowSol4 := lamportsToSol4String l, ts := inp.tsOf sig })
    w

/-- One iteration of the main loop body (src/index.js lines 354-496):
poll, advance the cursor, insert new outflows, then evaluate.  Returns the
final state, the signatures processed this cycle (oldest first), and the
evaluation events. -/
def fullCycle (cfg : Config) (inp : CycleInput) (st : BotState) :
    BotState × List String × List CycleEvent :=
  let fresh := fetchNewSignatures inp.sigs st.anchorSig
  let st1 : BotState :=
    if fresh.isEmpty then st
    else
      { anchorSig := fresh.head?,
        outflows := insertPhase cfg.windowOutflows inp fresh st.outflows,
        lastAlertKey := st.lastAlertKey }
  let res := evalCycleTrace cfg (fetchNewestSignature inp.resetSigs) inp.deliveryOk st1
  (res.1, fresh.reverse, res.2)

/-- Iterating the main loop over a sequence of cycle inputs, accumulating the
processed signatures and the evaluation events. -/
def runCycles (cfg : Config) : List CycleInput → BotState → BotState × List String × List CycleEvent
  | [], st => (st, [], [])
  | inp :: rest, st =>
    let r := fullCycle cfg inp st
    let r2 := runCycles cfg rest r.1
    (r2.1, r.2.1 ++ r2.2.1, r.2.2 ++ r2.2.2)

/-! ## JavaScript value model for the extraction paths (src/index.js lines 152-302)

The extractors receive arbitrary RPC responses.  `JVal` models the JavaScript
values reaching them; `jpubkey` stands for a `PublicKey` object (holding the
result of its `toBase58` method).  Property reads on `null`/`undefined` throw
in JavaScript, and `for...of` over a truthy non-iterable throws — these are
the only statements in the extractors that can raise, and they are modelled
in an `Except` monad. -/

inductive JVal where
  | jnull : JVal
  | jbool : Bool → JVal
  | jnum : Int → JVal
  | jstr : String → JVal
  | jpubkey : String → JVal
  | jarr : List JVal → JVal
  | jobj : List (String × JVal) → JVal

/-- JavaScript truthiness. -/
def truthy : JVal → Bool
  | JVal.jnull => false
  | JVal.jbool b => b
  | JVal.jnum n => decide (n ≠ 0)
  | JVal.jstr s => decide (s ≠ "")
  | JVal.jpubkey _ => true
  | JVal.jarr _ => true
  | JVal.jobj _ => true

/-- Property read on a value already known non-nullish (plain `x.f` after a
truthiness check): objects look the field up, arrays and strings expose
`length`, any other access yields `undefined` (modelled `jnull`). -/
def getMember : JVal → String → JVal
  | JVal.jobj fields, f => (fields.lookup f).getD JVal.jnull
  | JVal.jarr xs, f => if f = "length" then JVal.jnum xs.length else JVal.jnull
  | JVal.jstr s, f => if f = "length" then JVal.jnum s.length else JVal.jnull
  | _, _ => JVal.jnull

/-- Plain property read `x.f`: throws a `TypeError` on `null`/`undefined`. -/
def getProp : JVal → String → Except String JVal
  | JVal.jnull, _ => Except.error "TypeError: property read on nullish value"
  | v, f => Except.ok (getMember v f)

/-- Optional-chaining read `x?.f`: short-circuits to `undefined` on nullish. -/
def getPropOpt : JVal → String → JVal
  | JVal.jnull, _ => JVal.jnull
  | v, f => getMember v f

/-- JavaScript `a || b`. -/
def orJ (a b : JVal) : JVal :=
  if truthy a then a else b

/-- Strict equality `v === s` against a string literal. -/
def jvalEqStr (v : JVal) (s : String) : Bool :=
  match v with
  | JVal.jstr t => decide (t = s)
  | _ => false

/-- `for...of` iteration: arrays yield their elements, strings their
characters, anything else throws a `TypeError`. -/
def iterElems : JVal → Except String (List JVal)
  | JVal.jarr xs => Except.ok xs
  | JVal.jstr s => Except.ok (s.toList.map (fun c => JVal.jstr (String.mk [c])))
  | _ => Except.error "TypeError: value is not iterable"

/-- `Number(v)` restricted to the values the extractors feed it; `none`
models a non-finite result (`NaN`).  String coercion is modelled on integer
literal strings; non-numeric strings coerce to the `NaN` marker. -/
def toNumber : JVal → Option Int
  | JVal.jnull => some 0
  | JVal.jbool b => some (if b then 1 else 0)
  | JVal.jnum n => some n
  | JVal.jstr s => s.toInt?
  | _ => none

/-- `String(v)` as used by the last resort of `pubkeyToString`. -/
def displayString : JVal → String
  | JVal.jnull => "null"
  | JVal.jbool b => if b then "true" else "false"
  | JVal.jnum n => toString n
  | JVal.jstr s => s
  | JVal.jpubkey s => s
  | JVal.jarr _ => ""
  | JVal.jobj _ => "[object Object]"

/-- One extracted transfer event `{ to, lamports }` (the `_type` metadata
field of the parsed path is omitted — it never influences control flow). -/
structure RawTransfer where
  toDest : JVal
  lamports : Int

/-- `handleParsedIx` (src/index.js lines 157-178): total — every property
read is on a truthiness-checked value.  Appends at most one event. -/
def handleParsedIx (watch : String) (out : List RawTransfer) (ix : JVal) :
    List RawTransfer :=
  if truthy ix then
    let prog := orJ (getMember ix "program") (getMember ix "programId")
    let parsed := getMember ix "parsed"
    if truthy parsed && jvalEqStr prog "system" then
      let info := orJ (getMember parsed "info") (JVal.jobj [])
      let source := orJ (getMember info "source") (orJ (getMember info "from")
        (orJ (getMember info "authority") (getMember info "funder")))
      let dest := orJ (getMember info "destination") (getMember info "to")
      if truthy source && truthy dest then
        if jvalEqStr source watch then
          match toNumber (orJ (getMember info "lamports") (JVal.jnum 0)) with
          | none => out
          | some l => if l ≤ 0 then out else out ++ [{ toDest := dest, lamports := l }]
        else out
      else out
    else out
  else out

/-- The inner-instructions loop of `extractTransfersFromParsed`
(src/index.js lines 185-188): `innerItem.instructions` is a plain read, so a
nullish entry throws. -/
def processParsedInner (watch : String) :
    List JVal → List RawTransfer → Except String (List RawTransfer)
  | [], out => Except.ok out
  | item :: rest, out =>
    match getProp item "instructions" with
    | Except.error e => Except.error e
    | Except.ok instrs =>
      match iterElems (orJ instrs (JVal.jarr [])) with
      | Except.error e => Except.error e
      | Except.ok ixs => processParsedInner watch rest (ixs.foldl (handleParsedIx watch) out)

/-- `extractTransfersFromParsed` (src/index.js lines 154-191) in the
exception-explicit model. -/
def extractTransfersFromParsedE (parsedTx : JVal) (watch : String) :
    Except String (List RawTransfer) :=
  match iterElems (orJ (getPropOpt (getPropOpt (getPropOpt parsedTx "transaction")
      "message") "instructions") (JVal.jarr [])) with
  | Except.error e => Except.error e
  | Except.ok outer =>
    match iterElems (orJ (getPropOpt (getPropOpt parsedTx "meta") "innerInstructions")
        (JVal.jarr [])) with
    | Except.error e => Except.error e
    | Except.ok inner =>
      processParsedInner watch inner (outer.foldl (handleParsedIx watch) [])

/-- `pubkeyToString` (src/index.js lines 194-200): a `PublicKey` (`jpubkey`)
is the only modelled value with a callable `toBase58` method, so
`if (k?.toBase58) return k.toBase58()` succeeds on it and throws on every
other value whose `toBase58` property is truthy (a data field is not
callable); likewise `k.pubkey.toBase58()` throws when `k.pubkey` is truthy
but neither a string nor a `PublicKey`. -/
def pubkeyToStringE (k : JVal) : Except String String :=
  if truthy k then
    match k with
    | JVal.jstr s => Except.ok s
    | JVal.jpubkey s => Except.ok s
    | _ =>
      if truthy (getMember k "toBase58") then
        Except.error "TypeError: k.toBase58 is not a function"
      else
        let p := getMember k "pubkey"
        if truthy p then
          match p with
          | JVal.jstr s => Except.ok s
          | JVal.jpubkey s => Except.ok s
          | _ => Except.error "TypeError: k.pubkey.toBase58 is not a function"
        else Except.ok (displayString k)
  else Except.ok ""

/-- The `accountKeys` mapping loop of `getAllAccountKeysFromTx`
(src/index.js lines 207-208). -/
def mapPubkeysE : List JVal → Except String (List JVal)
  | [] => Except.ok []
  | k :: rest =>
    match pubkeyToStringE k with
    | Except.error e => Except.error e
    | Except.ok s =>
      match mapPubkeysE rest with
      | Except.error e => Except.error e
      | Except.ok restKeys => Except.ok (JVal.jstr s :: restKeys)

/-- One of the two guarded loaded-addresses spreads
(`if (la?.writable?.length) keys.push(...la.writable)` and its `readonly`
twin, src/index.js lines 210-212). -/
def loadedStep (la : JVal) (f : String) (keys : List JVal) :
    Except String (List JVal) :=
  if truthy (getPropOpt (getPropOpt la f) "length") then
    match iterElems (getMember la f) with
    | Except.error e => Except.error e
    | Except.ok ws => Except.ok (keys ++ ws)
  else Except.ok keys

/-- `getAllAccountKeysFromTx` (src/index.js lines 202-215): account keys
from the message plus the loaded addresses from the meta; the spreads throw
on truthy non-iterables. -/
def getAllAccountKeysFromTxE (tx : JVal) : Except String (List JVal) :=
  let msg := getPropOpt (getPropOpt tx "transaction") "message"
  let meta := getPropOpt tx "meta"
  match iterElems (orJ (getPropOpt msg "accountKeys") (JVal.jarr [])) with
  | Except.error e => Except.error e
  | Except.ok akItems =>
    match mapPubkeysE akItems with
    | Except.error e => Except.error e
    | Except.ok keys =>
      let la := getPropOpt meta "loadedAddresses"
      match loadedStep la "writable" keys with
      | Except.error e => Except.error e
      | Except.ok keys1 => loadedStep la "readonly" keys1

/-- Array indexing `keys[i]` with a JavaScript index value: out-of-range or
non-numeric indices give `undefined`. -/
def jvalListGet (keys : List JVal) (idx : JVal) : JVal :=
  match idx with
  | JVal.jnum n => if h : 0 ≤ n ∧ n.toNat < keys.length then keys.get ⟨n.toNat, h.2⟩ else JVal.jnull
  | _ => JVal.jnull

/-- `SystemProgram.programId.toBase58()`. -/
def systemProgramIdBase58 : String := "11111111111111111111111111111111"

/-- External library surface used by the compiled path: `Buffer.from`
base64/base58 decoding and the `PublicKey` + `SystemInstruction` decode of
a candidate instruction (resolved account keys plus data bytes), yielding
`(fromBase58, toBase58, lamports)` for a Transfer or TransferWithSeed,
`none` otherwise.  Any of them may throw. -/
structure LibCodec where
  base64Dec : JVal → Except String (List Nat)
  bs58Dec : JVal → Except String (List Nat)
  sysDecode : List JVal → List Nat → Except String (Option (String × String × Int))

/-- `decodeIxDataToBuffer` (src/index.js lines 217-227): total — both
library calls sit in `try`/`catch`. -/
def decodeIxDataToBuffer (lib : LibCodec) (dataStr : JVal) : Option (List Nat) :=
  if truthy dataStr then
    let viaBs58 : Option (List Nat) :=
      match lib.bs58Dec dataStr with
      | Except.ok b => some b
      | Except.error _ => none
    match lib.base64Dec dataStr with
    | Except.ok b => if 0 < b.length then some b else viaBs58
    | Except.error _ => viaBs58
  else none

/-- The body of `handleCompiledIx` (src/index.js lines 241-277) before its
surrounding `try`/`catch`. -/
def handleCompiledIxBody (lib : LibCodec) (watch : String) (keys : List JVal)
    (ix : JVal) : Except String (Option RawTransfer) :=
  match getProp ix "programIdIndex" with
  | Except.error e => Except.error e
  | Except.ok pidV =>
    if jvalEqStr (jvalListGet keys pidV) systemProgramIdBase58 then
      match getProp ix "data" with
      | Except.error e => Except.error e
      | Except.ok dataV =>
        match decodeIxDataToBuffer lib dataV with
        | none => Except.ok none
        | some dataBuf =>
          match orJ (getMember ix "accounts") (JVal.jarr []) with
          | JVal.jarr xs =>
            match lib.sysDecode (xs.map (fun ai => jvalListGet keys ai)) dataBuf with
            | Except.error e => Except.error e
            | Except.ok none => Except.ok none
            | Except.ok (some (fromKey, toKey, l)) =>
              if fromKey = watch then
                Except.ok (some { toDest := JVal.jstr toKey, lamports := l })
              else Except.ok none
          | _ => Except.error "TypeError: accounts.map is not a function"
    else Except.ok none

/-- `handleCompiledIx` with its `try`/`catch`: total. -/
def handleCompiledIx (lib : LibCodec) (watch : String) (keys : List JVal)
    (ix : JVal) : Option RawTransfer :=
  match handleCompiledIxBody lib watch keys ix with
  | Except.ok r => r
  | Except.error _ => none

/-- Accumulation step of `decodeSystemTransfersOutWithSum`: sum the lamports
and collect the event when the instruction decodes to a transfer out of the
watched address. -/
def compiledStep (lib : LibCodec) (watch : String) (keys : List JVal)
    (acc : Int × List RawTransfer) (ix : JVal) : Int × List RawTransfer :=
  match handleCompiledIx lib watch keys ix with
  | none => acc
  | some t => (acc.1 + t.lamports, acc.2 ++ [t])

/-- The inner-instructions loop of `decodeSystemTransfersOutWithSum`
(src/index.js lines 280-283): as in the parsed path, a nullish entry makes
the plain `innerItem.instructions` read throw. -/
def processCompiledInner (lib : LibCodec) (watch : String) (keys : List JVal) :
    List JVal → Int × List RawTransfer → Except String (Int × List RawTransfer)
  | [], acc => Except.ok acc
  | item :: rest, acc =>
    match getProp item "instructions" with
    | Except.error e => Except.error e
    | Except.ok instrs =>
      match iterElems (orJ instrs (JVal.jarr [])) with
      | Except.error e => Except.error e
      | Except.ok ixs =>
        processCompiledInner lib watch keys rest (ixs.foldl (compiledStep lib watch keys) acc)

/-- `decodeSystemTransfersOutWithSum` (src/index.js lines 229-285) in the
exception-explicit model. -/
def decodeSystemTransfersOutWithSumE (lib : LibCodec) (tx : JVal) (watch : String) :
    Except String (Int × List RawTransfer) :=
  let msg := getPropOpt (getPropOpt tx "transaction") "message"
  let meta := getPropOpt tx "meta"
  if truthy msg && truthy meta then
    match getAllAccountKeysFromTxE tx with
    | Except.error e => Except.error e
    | Except.ok keys =>
      match iterElems (orJ (getMember msg "instructions") (JVal.jarr [])) with
      | Except.error e => Except.error e
      | Except.ok outer =>
        match iterElems (orJ (getMember meta "innerInstructions") (JVal.jarr [])) with
        | Except.error e => Except.error e
        | Except.ok inner =>
          processCompiledInner lib watch keys inner
            (outer.foldl (compiledStep lib watch keys) (0, []))
  else Except.ok (0, [])

/-! ## Well-formedness classes under which the extractors cannot throw -/

/-- The value is not `null`/`undefined`. -/
def notNullish : JVal → Bool
  | JVal.jnull => false
  | _ => true

/-- `for (x of v || [])` succeeds: the value is falsy or iterable. -/
def forOfOk (v : JVal) : Bool :=
  if truthy v then
    match v with
    | JVal.jarr _ => true
    | JVal.jstr _ => true
    | _ => false
  else true

/-- The element list that `for (x of v || [])` visits when it succeeds. -/
def forOfElems (v : JVal) : List JVal :=
  if truthy v then
    match v with
    | JVal.jarr xs => xs
    | JVal.jstr s => s.toList.map (fun c => JVal.jstr (String.mk [c]))
    | _ => []
  else []

/-- An entry of `meta.innerInstructions` that the inner loops can consume
without throwing. -/
def innerItemOk (item : JVal) : Bool :=
  notNullish item && forOfOk (getPropOpt item "instructions")

/-- Transactions on which `extractTransfersFromParsed` cannot throw. -/
def wfParsedTx (tx : JVal) : Bool :=
  forOfOk (getPropOpt (getPropOpt (getPropOpt tx "transaction") "message") "instructions") &&
  forOfOk (getPropOpt (getPropOpt tx "meta") "innerInstructions") &&
  (forOfElems (getPropOpt (getPropOpt tx "meta") "innerInstructions")).all innerItemOk

/-- The spread guarded by `la?.writable?.length` (and `readonly`) succeeds:
either the guard is falsy or the list is iterable. -/
def loadedListOk (la : JVal) (f : String) : Bool :=
  !truthy (getPropOpt (getPropOpt la f) "length") ||
    (match getPropOpt la f with
      | JVal.jarr _ => true
      | JVal.jstr _ => true
      | _ => false)

/-- Transactions on which `decodeSystemTransfersOutWithSum` cannot throw. -/
def wfCompiledTx (tx : JVal) : Bool :=
  let msg := getPropOpt (getPropOpt tx "transaction") "message"
  let meta := getPropOpt tx "meta"
  !(truthy msg && truthy meta) ||
    (forOfOk (getPropOpt msg "accountKeys") &&
     (forOfElems (getPropOpt msg "accountKeys")).all (fun k => (pubkeyToStringE k).isOk) &&
     loadedListOk (getPropOpt meta "loadedAddresses") "writable" &&
     loadedListOk (getPropOpt meta "loadedAddresses") "readonly" &&
     forOfOk (getMember msg "instructions") &&
     forOfOk (getMember meta "innerInstructions") &&
     (forOfElems (getMember meta "innerInstructions")).all innerItemOk)

/-! ## Per-transaction match loops (src/unnamed/part_000 lines 411-435 and
src/index.js lines 447-457) -/

/-- A transfer event as consumed by the window-evaluation loops. -/
structure TransferEvent where
  toDest : String
  lamports : Int
deriving DecidableEq

/-- A matched destination line `{ sol4, destWallet }` of the alert text. -/
structure MatchedLine where
  sol4 : String
  destWallet : String
deriving DecidableEq

/-- A transfer passing every filter of the per-transaction loops: truthy
destination and lamports, range check, truncating five-digits check. -/
def qualifiesTransfer (cfg : Config) (t : TransferEvent) : Bool :=
  decide (t.toDest ≠ "") && decide (t.lamports ≠ 0) &&
    inSolRangeLamports cfg t.lamports && isFiveDigitsTransferLamports t.lamports

/-- The per-transaction loop of src/unnamed/part_000 lines 416-431: sticky
`hasInRange`/`hasFiveDigits` flags, and `break` after the first transfer
that passes all checks, so one transaction contributes at most one matched
line ("1 tx counts max 1 match").  Returns
`(hasInRange, hasFiveDigits, matched lines)`. -/
def matchLoop000 (cfg : Config) : List TransferEvent → Bool × Bool × List MatchedLine
  | [] => (false, false, [])
  | t :: rest =>
    if t.toDest = "" ∨ t.lamports = 0 then matchLoop000 cfg rest
    else if ¬ inSolRangeLamports cfg t.lamports then matchLoop000 cfg rest
    else if ¬ isFiveDigitsTransferLamports t.lamports then
      let r := matchLoop000 cfg rest
      (true, r.2.1, r.2.2)
    else (true, true, [{ sol4 := lamportsToSol4String t.lamports, destWallet := t.toDest }])

/-- The matched-lines builder of src/index.js lines 448-456: applies the same
rule to every transfer of the transaction and pushes a line for each one that
qualifies — there is no `break` on this path. -/
def matchLinesIndex (cfg : Config) (transfers : List TransferEvent) : List MatchedLine :=
  transfers.filterMap (fun t =>
    if t.toDest = "" ∨ t.lamports = 0 then none
    else if ¬ inSolRangeLamports cfg t.lamports then none
    else if ¬ isFiveDigitsLamports_4dpCut t.lamports then none
    else some { sol4 := lamportsToSol4String t.lamports, destWallet := t.toDest })

/-! ## Concrete values used by counterexamples and witnesses -/

/-- The default configuration: `MIN_SOL=0.1`, `MAX_SOL=20`,
`WINDOW_OUTFLOWS=10`, `REQUIRED_MATCH=3`. -/
def defaultCfg : Config := { minSol := 1/10, maxSol := 20, windowOutflows := 10, requiredMatch := 3 }

/-- Two distinct transfer events of 1.2345 SOL inside one transaction. -/
def twinTransferA : TransferEvent := { toDest := "walletA", lamports := 1234500000 }

/-- Second qualifying transfer of the same transaction. -/
def twinTransferB : TransferEvent := { toDest := "walletB", lamports := 1234500000 }

/-- A parsed transaction whose `meta.innerInstructions` holds a `null`
entry. -/
def parsedTxInnerNull : JVal :=
  JVal.jobj [("meta", JVal.jobj [("innerInstructions", JVal.jarr [JVal.jnull])])]

/-- A parsed transaction whose `message.instructions` is a truthy
non-list. -/
def parsedTxBadOuter : JVal :=
  JVal.jobj [("transaction", JVal.jobj [("message", JVal.jobj [("instructions", JVal.jnum 5)])])]

/-- A raw transaction with message and meta present but a `null` entry in
`meta.innerInstructions`. -/
def rawTxInnerNull : JVal :=
  JVal.jobj [("transaction", JVal.jobj [("message", JVal.jobj [])]),
    ("meta", JVal.jobj [("innerInstructions", JVal.jarr [JVal.jnull])])]

/-- A raw transaction whose `accountKeys` holds a plain object with a truthy
non-callable `toBase58` data field, on which `k.toBase58()` throws inside
`getAllAccountKeysFromTx` — outside any `try`/`catch` of the decoder. -/
def rawTxBadToBase58 : JVal :=
  JVal.jobj [("transaction", JVal.jobj [("message", JVal.jobj
      [("accountKeys", JVal.jarr [JVal.jobj [("toBase58", JVal.jstr "x")]])])]),
    ("meta", JVal.jobj [])]

/-- A library surface whose decoders always fail (their results are
irrelevant to the throwing counterexamples). -/
def failLib : LibCodec :=
  { base64Dec := fun _ => Except.error "decode failure",
    bs58Dec := fun _ => Except.error "decode failure",
    sysDecode := fun _ _ => Except.ok none }

/-- Configuration used by state-machine witnesses: capacity 1, threshold 0. -/
def witCfg : Config := { minSol := 0, maxSol := 20, windowOutflows := 1, requiredMatch := 0 }

/-- Configuration used by the trigger-atomicity witness: capacity 0,
threshold 0, so the hypotheses are decidable without rational arithmetic. -/
def witCfg0 : Config := { minSol := 0, maxSol := 20, windowOutflows := 0, requiredMatch := 0 }

/-- Initial state right after a warm-up that found no signature. -/
def emptyNullState : BotState := { anchorSig := none, outflows := [], lastAlertKey := none }

/-- A window record used by state-machine witnesses. -/
def witRecord : OutflowRecord :=
  { signature := "sigA", outLamports := 1234500000, outflowSol4 := "1.2345", ts := 0 }

/-- A one-record state used by state-machine witnesses. -/
def witState : BotState := { anchorSig := some "sigA", outflows := [witRecord], lastAlertKey := none }

/-- A cycle input whose poll is empty. -/
def witInput : CycleInput :=
  { sigs := [], outOf := fun _ => 0, tsOf := fun _ => 0, resetSigs := [], deliveryOk := true }

/-! ## Claim theorems -/

/-- C3 counterexample: the claim identifies 9.9999 SOL with 999,990,000
lamports and asserts that this amount scales to 99999; in fact 999,990,000
lamports (0.99999 SOL) scale to 9999. -/
theorem truncating_boundary_lamports_cex :
    scaled4dpCut 999990000 = 9999 ∧ scaled4dpCut 999990000 ≠ 99999 := by
  decide

/-- C3 amended: under the truncating sub-policy the classifier floors
`|lamports| / 1e5` and matches exactly when the scaled integer is at most
99999 — equivalently when the amount is under 10 SOL; 9.9999 SOL is
9,999,900,000 lamports (scaled 99999) and matches, while 10.0000 SOL is
10,000,000,000 lamports (scaled 100000) and does not. -/
theorem truncating_boundary_amended :
    (∀ l : Int, isFiveDigitsLamports_4dpCut l = true ↔ l.natAbs < 10000000000) ∧
    scaled4dpCut 9999900000 = 99999 ∧
    isFiveDigitsLamports_4dpCut 9999900000 = true ∧
    scaled4dpCut 10000000000 = 100000 ∧
    isFiveDigitsLamports_4dpCut 10000000000 = false := by
  refine ⟨fun l => ?_, by decide, by decide, by decide, by decide⟩
  simp only [isFiveDigitsLamports_4dpCut, scaled4dpCut, decide_eq_true_eq]
  have h1 : l.natAbs / 100000 ≤ 99999 ↔ l.natAbs / 100000 < 100000 := by omega
  rw [h1, Nat.div_lt_iff_lt_mul (by norm_num)]

/-- C4: under the exact sub-policy any delta that is not an exact multiple
of 100000 lamports is rejected; 1.23455 SOL (1,234,550,000 lamports) never
matches, while 1.2345 SOL (1,234,500,000 lamports, scaled 12345) does. -/
theorem exact_policy_boundary :
    (∀ d : Int, d.natAbs % 100000 ≠ 0 → isFiveDigitsByDestDeltaExact d = false) ∧
    (1234550000 : Int).natAbs % 100000 ≠ 0 ∧
    isFiveDigitsByDestDeltaExact 1234550000 = false ∧
    isFiveDigitsByDestDeltaExact 1234500000 = true ∧
    (1234500000 : Int).natAbs / 100000 = 12345 := by
  refine ⟨fun d h => ?_, by decide, by decide, by decide, by decide⟩
  have hv : ¬ d.natAbs = 0 := by
    intro h0
    rw [h0] at h
    simp at h
  simp [isFiveDigitsByDestDeltaExact, LAMPORTS_PER_SOL_4DP, hv, h]

/-- C4 witness: the theorem applied at 1,234,550,000 lamports. -/
theorem exact_policy_boundary_witness :
    (1234550000 : Int).natAbs % 100000 ≠ 0 ∧
      isFiveDigitsByDestDeltaExact 1234550000 = false :=
  ⟨by decide, exact_policy_boundary.1 1234550000 (by decide)⟩

/-- C10: whenever the exact-delta classifier accepts a delta, the exact
formatter returns a non-null string on that same delta (both apply the same
positivity and divisibility-by-1e5 guards), so the post-formatting
null-check skip of the match loop is unreachable. -/
theorem exact_format_non_null :
    ∀ d : Int, isFiveDigitsByDestDeltaExact d = true →
      (lamportsToSol4ExactString d).isSome = true := by
  intro d h
  unfold isFiveDigitsByDestDeltaExact at h
  unfold lamportsToSol4ExactString
  by_cases h0 : d.natAbs = 0
  · simp [h0] at h
  · by_cases hm : d.natAbs % LAMPORTS_PER_SOL_4DP ≠ 0
    · simp [h0, hm] at h
    · simp [h0, hm]

/-- C10 witness: the theorem applied at 1,234,500,000 lamports. -/
theorem exact_format_non_null_witness :
    isFiveDigitsByDestDeltaExact 1234500000 = true ∧
      (lamportsToSol4ExactString 1234500000).isSome = true :=
  ⟨by decide, exact_format_non_null 1234500000 (by decide)⟩

/-- The insertion step always equals prepend-then-truncate. -/
theorem insertOutflow_eq_take (cap : Nat) (w : List OutflowRecord) (r : OutflowRecord) :
    insertOutflow cap w r = (r :: w).take cap := by
  unfold insertOutflow
  by_cases h : cap < (r :: w).length
  · simp [h]
  · simp [h, List.take_of_length_le (Nat.le_of_not_lt h)]

/-- Taking after appending an already-truncated tail is the same as taking
after appending the full tail. -/
theorem take_append_take (a b : List OutflowRecord) (n : Nat) :
    (a ++ b.take n).take n = (a ++ b).take n := by
  rw [List.take_append_eq_append_take, List.take_append_eq_append_take, List.take_take]
  congr 2
  omega

/-- A batch of insertions from an in-capacity window retains exactly the
newest `cap` entries, newest first. -/
theorem insertMany_eq_take (cap : Nat) (rs : List OutflowRecord) :
    ∀ w0 : List OutflowRecord, w0.length ≤ cap →
      insertMany cap w0 rs = (rs.reverse ++ w0).take cap := by
  induction rs with
  | nil =>
    intro w0 h
    simp [insertMany, List.take_of_length_le h]
  | cons r rs ih =>
    intro w0 h
    have hstep : insertMany cap w0 (r :: rs) = insertMany cap (insertOutflow cap w0 r) rs := rfl
    have hlen : (insertOutflow cap w0 r).length ≤ cap := by
      rw [insertOutflow_eq_take, List.length_take]
      omega
    rw [hstep, ih _ hlen, insertOutflow_eq_take, take_append_take]
    simp [List.append_assoc]

/-- C2: window capacity invariant — for every insertion sequence from a
window within capacity, the window never exceeds the capacity and the
retained entries are exactly the most recently inserted records in
newest-first order (exactly the newest `cap` once at least `cap` records
have been inserted). -/
theorem window_capacity_invariant (cap : Nat) (w0 rs : List OutflowRecord)
    (h : w0.length ≤ cap) :
    (insertMany cap w0 rs).length ≤ cap ∧
    insertMany cap w0 rs = (rs.reverse ++ w0).take cap ∧
    (cap ≤ rs.length → insertMany cap w0 rs = rs.reverse.take cap) := by
  have he := insertMany_eq_take cap rs w0 h
  refine ⟨?_, he, fun hlen => ?_⟩
  · rw [he, List.length_take]
    omega
  · rw [he, List.take_append_of_le_length]
    rw [List.length_reverse]
    exact hlen

/-- C2 witness: capacity 2, one pre-existing record, two insertions. -/
theorem window_capacity_invariant_witness :
    ([witRecord] : List OutflowRecord).length ≤ 2 ∧
    ((insertMany 2 [witRecord] [witRecord, witRecord]).length ≤ 2 ∧
     insertMany 2 [witRecord] [witRecord, witRecord] =
       ([witRecord, witRecord].reverse ++ [witRecord]).take 2 ∧
     (2 ≤ ([witRecord, witRecord] : List OutflowRecord).length →
       insertMany 2 [witRecord] [witRecord, witRecord] =
         ([witRecord, witRecord] : List OutflowRecord).reverse.take 2)) :=
  ⟨by decide, window_capacity_invariant 2 [witRecord] [witRecord, witRecord] (by decide)⟩

/-- Every evaluation phase attempts dispatch at most once. -/
theorem dispatchCount_le_one (cfg : Config) (n : Option String) (ok : Bool)
    (st : BotState) : dispatchCount (evalCycleTrace cfg n ok st).2 ≤ 1 := by
  unfold evalCycleTrace
  by_cases h1 : cfg.windowOutflows ≤ st.outflows.length
  · by_cases h2 : cfg.requiredMatch ≤ (matchedOutflows cfg st.outflows).length
    · by_cases h3 : st.lastAlertKey = some (makeAlertKey st.outflows)
      · simp [h1, h2, h3, dispatchCount, isDispatchEvt, List.filter]
      · simp [h1, h2, h3, dispatchCount, isDispatchEvt, List.filter]
    · simp [h1, h2, dispatchCount]
  · simp [h1, dispatchCount]

/-- An evaluation phase whose alert key is already recorded is a no-op. -/
theorem evalCycle_noop_of_key_eq (cfg : Config) (n : Option String) (ok : Bool)
    (st : BotState) (hk : st.lastAlertKey = some (makeAlertKey st.outflows)) :
    evalCycleTrace cfg n ok st = (st, []) := by
  unfold evalCycleTrace
  by_cases h1 : cfg.windowOutflows ≤ st.outflows.length
  · by_cases h2 : cfg.requiredMatch ≤ (matchedOutflows cfg st.outflows).length
    · simp [h1, h2, hk]
    · simp [h1, h2]
  · simp [h1]

/-- An evaluation phase on an empty window with positive capacity is a
no-op. -/
theorem evalCycle_noop_of_empty (cfg : Config) (n n' : Option String) (ok : Bool)
    (kk : Option String) (hcap : 1 ≤ cfg.windowOutflows) :
    evalCycleTrace cfg n' ok { anchorSig := n, outflows := [], lastAlertKey := kk } =
      ({ anchorSig := n, outflows := [], lastAlertKey := kk }, []) := by
  have h0 : ¬ (cfg.windowOutflows ≤ ([] : List OutflowRecord).length) := by
    simp only [List.length_nil]
    omega
  unfold evalCycleTrace
  exact if_neg h0

/-- C1: alert deduplication is idempotent — a cycle whose alert key equals
the recorded `lastAlertKey` performs no dispatch and leaves the state
unchanged (so re-evaluating an unchanged persisted window never
re-dispatches); a dispatch happens exactly when the window is full, the
tally reaches the threshold and the key is fresh; and across two
consecutive evaluations of a fixed window content, dispatch fires at most
once. -/
theorem alertDedup_idempotent (cfg : Config) (n1 n2 : Option String) (ok1 ok2 : Bool)
    (st : BotState) (hcap : 1 ≤ cfg.windowOutflows) :
    (st.lastAlertKey = some (makeAlertKey st.outflows) →
      evalCycleTrace cfg n1 ok1 st = (st, [])) ∧
    (1 ≤ dispatchCount (evalCycleTrace cfg n1 ok1 st).2 →
      st.lastAlertKey ≠ some (makeAlertKey st.outflows) ∧
      cfg.windowOutflows ≤ st.outflows.length ∧
      cfg.requiredMatch ≤ (matchedOutflows cfg st.outflows).length) ∧
    (cfg.windowOutflows ≤ st.outflows.length →
      cfg.requiredMatch ≤ (matchedOutflows cfg st.outflows).length →
      st.lastAlertKey ≠ some (makeAlertKey st.outflows) →
      dispatchCount (evalCycleTrace cfg n1 ok1 st).2 = 1) ∧
    dispatchCount (evalCycleTrace cfg n2 ok2 (evalCycleTrace cfg n1 ok1 st).1).2 +
      dispatchCount (evalCycleTrace cfg n1 ok1 st).2 ≤ 1 := by
  by_cases h1 : cfg.windowOutflows ≤ st.outflows.length
  · by_cases h2 : cfg.requiredMatch ≤ (matchedOutflows cfg st.outflows).length
    · by_cases h3 : st.lastAlertKey = some (makeAlertKey st.outflows)
      · have hfst : evalCycleTrace cfg n1 ok1 st = (st, []) :=
          evalCycle_noop_of_key_eq cfg n1 ok1 st h3
        refine ⟨fun _ => hfst, ?_, fun _ _ hk' => absurd h3 hk', ?_⟩
        · intro hd
          rw [hfst] at hd
          simp [dispatchCount] at hd
        · rw [hfst]
          simp [dispatchCount]
          have := dispatchCount_le_one cfg n2 ok2 st
          simpa [dispatchCount] using this
      · have hfst : evalCycleTrace cfg n1 ok1 st =
            ({ anchorSig := n1, outflows := [], lastAlertKey := none },
              [CycleEvent.persistEvt { st with lastAlertKey := some (makeAlertKey st.outflows) },
                CycleEvent.dispatchEvt ok1,
                CycleEvent.persistEvt { anchorSig := n1, outflows := [], lastAlertKey := none }]) := by
          unfold evalCycleTrace
          simp [h1, h2, h3]
        refine ⟨fun hk' => absurd hk' h3, fun _ => ⟨h3, h1, h2⟩, fun _ _ _ => ?_, ?_⟩
        · rw [hfst]
          simp [dispatchCount, isDispatchEvt, List.filter]
        · rw [hfst]
          have hsnd := evalCycle_noop_of_empty cfg n1 n2 ok2 none hcap
          simp only [hsnd]
          simp [dispatchCount, isDispatchEvt, List.filter]
    · have hfst : evalCycleTrace cfg n1 ok1 st = (st, []) := by
        unfold evalCycleTrace
        simp [h1, h2]
      refine ⟨fun _ => hfst, ?_, fun _ hm' _ => absurd hm' h2, ?_⟩
      · intro hd
        rw [hfst] at hd
        simp [dispatchCount] at hd
      · rw [hfst]
        simp [dispatchCount]
        have := dispatchCount_le_one cfg n2 ok2 st
        simpa [dispatchCount] using this
  · have hfst : evalCycleTrace cfg n1 ok1 st = (st, []) := by
      unfold evalCycleTrace
      simp [h1]
    refine ⟨fun _ => hfst, ?_, fun hw' _ _ => absurd hw' h1, ?_⟩
    · intro hd
      rw [hfst] at hd
      simp [dispatchCount] at hd
    · rw [hfst]
      simp [dispatchCount]
      have := dispatchCount_le_one cfg n2 ok2 st
      simpa [dispatchCount] using this

/-- C1 witness: capacity 1, threshold 0, a one-record window with no
recorded key. -/
theorem alertDedup_idempotent_witness :
    1 ≤ witCfg.windowOutflows ∧
    ((witState.lastAlertKey = some (makeAlertKey witState.outflows) →
        evalCycleTrace witCfg (some "x") true witState = (witState, [])) ∧
      (1 ≤ dispatchCount (evalCycleTrace witCfg (some "x") true witState).2 →
        witState.lastAlertKey ≠ some (makeAlertKey witState.outflows) ∧
        witCfg.windowOutflows ≤ witState.outflows.length ∧
        witCfg.requiredMatch ≤ (matchedOutflows witCfg witState.outflows).length) ∧
      (witCfg.windowOutflows ≤ witState.outflows.length →
        witCfg.requiredMatch ≤ (matchedOutflows witCfg witState.outflows).length →
        witState.lastAlertKey ≠ some (makeAlertKey witState.outflows) →
        dispatchCount (evalCycleTrace witCfg (some "x") true witState).2 = 1) ∧
      dispatchCount (evalCycleTrace witCfg none false
          (evalCycleTrace witCfg (some "x") true witState).1).2 +
        dispatchCount (evalCycleTrace witCfg (some "x") true witState).2 ≤ 1) :=
  ⟨by decide, alertDedup_idempotent witCfg (some "x") none true false witState (by decide)⟩

/-- C8: delivery-failure atomicity of the trigger transition — on a
threshold crossing with a fresh key, the key is persisted as sent before
the dispatch attempt, the window reset (outflows cleared, key cleared,
cursor re-anchored) is persisted afterwards, exactly one dispatch attempt
is made, and the final state is identical whether or not delivery fails. -/
theorem trigger_atomicity (cfg : Config) (newestSig : Option String) (st : BotState)
    (hwin : cfg.windowOutflows ≤ st.outflows.length)
    (hmatch : cfg.requiredMatch ≤ (matchedOutflows cfg st.outflows).length)
    (hnew : st.lastAlertKey ≠ some (makeAlertKey st.outflows)) :
    ∀ ok : Bool,
      evalCycleTrace cfg newestSig ok st =
        ({ anchorSig := newestSig, outflows := [], lastAlertKey := none },
          [CycleEvent.persistEvt { st with lastAlertKey := some (makeAlertKey st.outflows) },
            CycleEvent.dispatchEvt ok,
            CycleEvent.persistEvt
              { anchorSig := newestSig, outflows := [], lastAlertKey := none }]) ∧
      dispatchCount (evalCycleTrace cfg newestSig ok st).2 = 1 ∧
      (evalCycleTrace cfg newestSig ok st).1 = (evalCycleTrace cfg newestSig (!ok) st).1 := by
  intro ok
  have h : ∀ b : Bool, evalCycleTrace cfg newestSig b st =
      ({ anchorSig := newestSig, outflows := [], lastAlertKey := none },
        [CycleEvent.persistEvt { st with lastAlertKey := some (makeAlertKey st.outflows) },
          CycleEvent.dispatchEvt b,
          CycleEvent.persistEvt
            { anchorSig := newestSig, outflows := [], lastAlertKey := none }]) := by
    intro b
    unfold evalCycleTrace
    simp [hwin, hmatch, hnew]
  refine ⟨h ok, ?_, ?_⟩
  · rw [h ok]
    simp [dispatchCount, isDispatchEvt, List.filter]
  · rw [h ok, h (!ok)]

/-- C8 witness: capacity 0 and threshold 0, so the trigger hypotheses hold
on the empty window. -/
theorem trigger_atomicity_witness :
    (witCfg0.windowOutflows ≤ emptyNullState.outflows.length ∧
      witCfg0.requiredMatch ≤ (matchedOutflows witCfg0 emptyNullState.outflows).length ∧
      emptyNullState.lastAlertKey ≠ some (makeAlertKey emptyNullState.outflows)) ∧
    (evalCycleTrace witCfg0 none false emptyNullState =
        ({ anchorSig := none, outflows := [], lastAlertKey := none },
          [CycleEvent.persistEvt
              { emptyNullState with lastAlertKey := some (makeAlertKey emptyNullState.outflows) },
            CycleEvent.dispatchEvt false,
            CycleEvent.persistEvt { anchorSig := none, outflows := [], lastAlertKey := none }]) ∧
      dispatchCount (evalCycleTrace witCfg0 none false emptyNullState).2 = 1 ∧
      (evalCycleTrace witCfg0 none false emptyNullState).1 =
        (evalCycleTrace witCfg0 none (!false) emptyNullState).1) :=
  ⟨⟨by decide, by decide, by decide⟩,
    trigger_atomicity witCfg0 none emptyNullState (by decide) (by decide) (by decide) false⟩

/-- A non-empty poll prefix starts with the newest signature of the poll. -/
theorem fetchNewSignatures_head (sigs : List String) (a s : String)
    (rest : List String) (h : fetchNewSignatures sigs (some a) = s :: rest) :
    sigs.head? = some s ∧ s ∈ sigs ∧ sigs.indexOf s = 0 := by
  cases sigs with
  | nil => simp [fetchNewSignatures] at h
  | cons x xs =>
    rw [fetchNewSignatures] at h
    simp only [List.isEmpty_cons] at h
    rw [if_neg (by simp)] at h
    rw [List.takeWhile_cons] at h
    by_cases hp : x ≠ a
    · rw [if_pos (by simp [hp])] at h
      have hx : s = x := by
        injection h with h1 h2
        exact h1.symm
      subst hx
      exact ⟨rfl, List.mem_cons_self _ _, List.indexOf_cons_self s xs⟩
    · rw [if_neg (by simp [hp])] at h
      exact absurd h (by simp)

/-- C6: the cursor is monotonic — after a non-empty poll the advance moves
the cursor to the newest fetched signature (position 0 of the newest-first
poll result, hence present in it and never backward), independently of any
classification outcome; and the post-trigger re-anchor is likewise the
newest signature of its own poll when one exists. -/
theorem cursor_monotonic (sigs : List String) (a : String) :
    (∀ s rest, fetchNewSignatures sigs (some a) = s :: rest →
      sigs.head? = some s ∧ s ∈ sigs ∧ sigs.indexOf s = 0) ∧
    (advanceCursor sigs (some a) = some a ∨
      ∃ s, advanceCursor sigs (some a) = some s ∧ sigs.head? = some s ∧
        sigs.indexOf s = 0) ∧
    (∀ sigs1 : List String, fetchNewestSignature sigs1 = none ∨
      ∃ s, fetchNewestSignature sigs1 = some s ∧ s ∈ sigs1 ∧ sigs1.indexOf s = 0) := by
  refine ⟨fun s rest h => fetchNewSignatures_head sigs a s rest h, ?_, ?_⟩
  · unfold advanceCursor
    cases hf : fetchNewSignatures sigs (some a) with
    | nil => exact Or.inl rfl
    | cons s rest =>
      right
      obtain ⟨h1, _, h3⟩ := fetchNewSignatures_head sigs a s rest hf
      exact ⟨s, rfl, h1, h3⟩
  · intro sigs1
    cases sigs1 with
    | nil => exact Or.inl rfl
    | cons x xs =>
      exact Or.inr ⟨x, rfl, List.mem_cons_self _ _, List.indexOf_cons_self x xs⟩

/-- C6 witness: poll `["s2", "s1"]` with stored cursor `"s1"`. -/
theorem cursor_monotonic_witness :
    fetchNewSignatures ["s2", "s1"] (some "s1") = ["s2"] ∧
    (["s2", "s1"] : List String).head? = some "s2" ∧ "s2" ∈ (["s2", "s1"] : List String) ∧
      (["s2", "s1"] : List String).indexOf "s2" = 0 :=
  ⟨by decide, (cursor_monotonic ["s2", "s1"] "s1").1 "s2" [] (by decide)⟩

/-- C9: a null cursor is inert — with a null stored cursor the poll returns
the empty list for every upstream result, so from the state a warm-up that
finds no newest signature leaves behind, every subsequent cycle processes no
transaction, dispatches nothing and keeps the cursor null. -/
theorem null_cursor_inert (cfg : Config) (inps : List CycleInput) (sigs : List String)
    (hcap : 1 ≤ cfg.windowOutflows) :
    fetchNewSignatures sigs none = [] ∧
    runCycles cfg inps emptyNullState = (emptyNullState, [], []) := by
  constructor
  · cases sigs <;> rfl
  · induction inps with
    | nil => rfl
    | cons inp rest ih =>
      have hfresh : fetchNewSignatures inp.sigs emptyNullState.anchorSig = [] := by
        cases inp.sigs <;> rfl
      have hcyc : fullCycle cfg inp emptyNullState = (emptyNullState, [], []) := by
        unfold fullCycle
        rw [hfresh]
        simp only [List.isEmpty_nil, if_pos, List.reverse_nil]
        rw [show emptyNullState = { anchorSig := none, outflows := [], lastAlertKey := none } from rfl,
          evalCycle_noop_of_empty cfg none (fetchNewestSignature inp.resetSigs)
            inp.deliveryOk none hcap]
      rw [runCycles, hcyc]
      simp only
      rw [ih]
      rfl

/-- C9 witness: one cycle with a singleton upstream poll. -/
theorem null_cursor_inert_witness :
    1 ≤ witCfg.windowOutflows ∧
    (fetchNewSignatures ["x"] none = [] ∧
      runCycles witCfg [witInput] emptyNullState = (emptyNullState, [], [])) :=
  ⟨by decide, null_cursor_inert witCfg [witInput] ["x"] (by decide)⟩

/-- The 1.2345 SOL transfers of the twin-transfer transaction pass the
default range check. -/
theorem twinTransfer_inRange : inSolRangeLamports defaultCfg 1234500000 = true := by
  simp only [inSolRangeLamports, defaultCfg, Bool.and_eq_true, decide_eq_true_eq]
  constructor <;> norm_num

/-- C5 counterexample: in src/index.js the matched-lines builder has no
per-transaction cap — a transaction with two individually qualifying
transfer events contributes two matched lines. -/
theorem per_tx_cap_index_cex :
    qualifiesTransfer defaultCfg twinTransferA = true ∧
    qualifiesTransfer defaultCfg twinTransferB = true ∧
    (matchLinesIndex defaultCfg [twinTransferA, twinTransferB]).length = 2 := by
  have hr := twinTransfer_inRange
  have h5 : isFiveDigitsLamports_4dpCut (1234500000 : Int) = true := by decide
  have h5t : isFiveDigitsTransferLamports (1234500000 : Int) = true := by decide
  have hA : (twinTransferA.toDest = "" ∨ twinTransferA.lamports = 0) = False := by
    simp [twinTransferA]
  have hB : (twinTransferB.toDest = "" ∨ twinTransferB.lamports = 0) = False := by
    simp [twinTransferB]
  refine ⟨?_, ?_, ?_⟩
  · simp [qualifiesTransfer, twinTransferA, hr, h5t]
  · simp [qualifiesTransfer, twinTransferB, hr, h5t]
  · simp only [matchLinesIndex, List.filterMap_cons, List.filterMap_nil]
    rw [show twinTransferA.lamports = 1234500000 from rfl,
      show twinTransferB.lamports = 1234500000 from rfl]
    simp [hA, hB, hr, h5, twinTransferA, twinTransferB]

/-- C5 amended: the window tally of every variant counts each transaction at
most once, and in the variants with the explicit per-transaction `break`
(src/unnamed/part_000 lines 411-435) a transaction contributes exactly one
match — the first transfer in extraction order passing all checks — to both
the tally and the matched lines; the matched-lines builder of src/index.js
(lines 447-457), however, contributes one line per qualifying transfer of
the transaction (see the counterexample). -/
theorem per_tx_cap_amended (cfg : Config) (transfers : List TransferEvent) :
    (matchLoop000 cfg transfers).2.2.length ≤ 1 ∧
    (matchLoop000 cfg transfers).2.2 =
      ((transfers.find? (qualifiesTransfer cfg)).map
        (fun t => MatchedLine.mk (lamportsToSol4String t.lamports) t.toDest)).toList ∧
    (matchLoop000 cfg transfers).2.1 = (transfers.find? (qualifiesTransfer cfg)).isSome := by
  induction transfers with
  | nil => simp [matchLoop000]
  | cons t rest ih =>
    have hbody : matchLoop000 cfg (t :: rest) =
        (if t.toDest = "" ∨ t.lamports = 0 then matchLoop000 cfg rest
         else if ¬ inSolRangeLamports cfg t.lamports then matchLoop000 cfg rest
         else if ¬ isFiveDigitsTransferLamports t.lamports then
           (true, (matchLoop000 cfg rest).2.1, (matchLoop000 cfg rest).2.2)
         else (true, true,
           [MatchedLine.mk (lamportsToSol4String t.lamports) t.toDest])) := rfl
    by_cases hb1 : t.toDest = "" ∨ t.lamports = 0
    · have hq : qualifiesTransfer cfg t = false := by
        rcases hb1 with h | h <;> simp [qualifiesTransfer, h]
      have hfind : List.find? (qualifiesTransfer cfg) (t :: rest) =
          List.find? (qualifiesTransfer cfg) rest := by
        rw [List.find?_cons, hq]
      rw [hbody, if_pos hb1, hfind]
      exact ih
    · by_cases hr : inSolRangeLamports cfg t.lamports = true
      · by_cases h5 : isFiveDigitsTransferLamports t.lamports = true
        · have hq : qualifiesTransfer cfg t = true := by
            rw [not_or] at hb1
            simp [qualifiesTransfer, hb1.1, hb1.2, hr, h5]
          have hfind : List.find? (qualifiesTransfer cfg) (t :: rest) = some t := by
            rw [List.find?_cons, hq]
          rw [hbody, if_neg hb1, if_neg (not_not_intro hr), if_neg (not_not_intro h5), hfind]
          simp
        · have hq : qualifiesTransfer cfg t = false := by
            simp only [Bool.not_eq_true] at h5
            simp [qualifiesTransfer, h5]
          have hfind : List.find? (qualifiesTransfer cfg) (t :: rest) =
              List.find? (qualifiesTransfer cfg) rest := by
            rw [List.find?_cons, hq]
          rw [hbody, if_neg hb1, if_neg (not_not_intro hr), if_pos h5, hfind]
          exact ⟨ih.1, ih.2.1, ih.2.2⟩
      · have hq : qualifiesTransfer cfg t = false := by
          simp only [Bool.not_eq_true] at hr
          simp [qualifiesTransfer, hr]
        have hfind : List.find? (qualifiesTransfer cfg) (t :: rest) =
            List.find? (qualifiesTransfer cfg) rest := by
          rw [List.find?_cons, hq]
        rw [hbody, if_neg hb1, if_pos hr, hfind]
        exact ih

/-- Plain property reads succeed on non-nullish values. -/
theorem getProp_ok (v : JVal) (f : String) (h : notNullish v = true) :
    getProp v f = Except.ok (getMember v f) := by
  cases v <;> simp_all [notNullish, getProp]

/-- Optional chaining agrees with the plain read on non-nullish values. -/
theorem getPropOpt_eq_getMember (v : JVal) (f : String) (h : notNullish v = true) :
    getPropOpt v f = getMember v f := by
  cases v <;> simp_all [notNullish, getPropOpt]

/-- A guarded `for...of` over a well-formed value yields its elements. -/
theorem iterElems_orJ_ok (v : JVal) (h : forOfOk v = true) :
    iterElems (orJ v (JVal.jarr [])) = Except.ok (forOfElems v) := by
  cases v with
  | jnull => simp [orJ, truthy, iterElems, forOfElems]
  | jbool b =>
    cases b with
    | false => simp [orJ, truthy, iterElems, forOfElems]
    | true => simp [forOfOk, truthy] at h
  | jnum n =>
    by_cases hn : n = 0
    · simp [orJ, truthy, iterElems, forOfElems, hn]
    · simp [forOfOk, truthy, hn] at h
  | jstr s =>
    by_cases hs : s = ""
    · simp [orJ, truthy, iterElems, forOfElems, hs]
    · simp [orJ, truthy, iterElems, forOfElems, hs]
  | jpubkey s => simp [forOfOk, truthy] at h
  | jarr xs => simp [orJ, truthy, iterElems, forOfElems]
  | jobj fs => simp [forOfOk, truthy] at h

/-- The inner-instructions loop of the parsed path succeeds on well-formed
items. -/
theorem processParsedInner_ok (watch : String) :
    ∀ (items : List JVal) (out : List RawTransfer),
      (∀ item ∈ items, innerItemOk item = true) →
      ∃ l, processParsedInner watch items out = Except.ok l := by
  intro items
  induction items with
  | nil => exact fun out _ => ⟨out, rfl⟩
  | cons item rest ih =>
    intro out h
    have h1 := h item (List.mem_cons_self _ _)
    rw [innerItemOk, Bool.and_eq_true] at h1
    obtain ⟨hnn, hfo⟩ := h1
    rw [getPropOpt_eq_getMember _ _ hnn] at hfo
    have hrest : ∀ item ∈ rest, innerItemOk item = true :=
      fun i hi => h i (List.mem_cons_of_mem _ hi)
    obtain ⟨l, hl⟩ := ih ((forOfElems (getMember item "instructions")).foldl
      (handleParsedIx watch) out) hrest
    refine ⟨l, ?_⟩
    simp only [processParsedInner, getProp_ok _ _ hnn, iterElems_orJ_ok _ hfo]
    exact hl

/-- Iteration without a fallback succeeds on arrays and strings. -/
theorem iterElems_arrstr_ok (v : JVal)
    (h : (match v with
      | JVal.jarr _ => true
      | JVal.jstr _ => true
      | _ => false) = true) :
    ∃ l, iterElems v = Except.ok l := by
  cases v <;> simp_all [iterElems]

/-- The account-keys mapping succeeds when every key stringifies. -/
theorem mapPubkeysE_ok :
    ∀ ks : List JVal, (∀ k ∈ ks, (pubkeyToStringE k).isOk = true) →
      ∃ l, mapPubkeysE ks = Except.ok l := by
  intro ks
  induction ks with
  | nil => exact fun _ => ⟨[], rfl⟩
  | cons k rest ih =>
    intro h
    have h1 := h k (List.mem_cons_self _ _)
    obtain ⟨l, hl⟩ := ih (fun i hi => h i (List.mem_cons_of_mem _ hi))
    cases hk : pubkeyToStringE k with
    | error e => rw [hk] at h1; simp [Except.isOk, Except.toBool] at h1
    | ok s =>
      refine ⟨JVal.jstr s :: l, ?_⟩
      simp only [mapPubkeysE, hk, hl]

/-- One guarded loaded-addresses spread succeeds under `loadedListOk`. -/
theorem loadedStep_ok (la : JVal) (f : String) (h : loadedListOk la f = true)
    (keys : List JVal) :
    ∃ ks, loadedStep la f keys = Except.ok ks := by
  by_cases hc : truthy (getPropOpt (getPropOpt la f) "length") = true
  · have hla : notNullish la = true := by
      cases la <;> simp_all [getPropOpt, truthy, notNullish]
    have hmatch : (match getPropOpt la f with
        | JVal.jarr _ => true
        | JVal.jstr _ => true
        | _ => false) = true := by
      rw [loadedListOk, Bool.or_eq_true] at h
      rcases h with h | h
      · rw [hc] at h
        simp at h
      · exact h
    obtain ⟨l, hl⟩ := iterElems_arrstr_ok _ hmatch
    rw [getPropOpt_eq_getMember la f hla] at hl
    refine ⟨keys ++ l, ?_⟩
    rw [loadedStep, if_pos hc, hl]
  · refine ⟨keys, ?_⟩
    rw [loadedStep, if_neg hc]

/-- `getAllAccountKeysFromTx` succeeds under the compiled well-formedness
conditions. -/
theorem getAllAccountKeysFromTxE_ok (tx : JVal)
    (h1 : forOfOk (getPropOpt (getPropOpt (getPropOpt tx "transaction") "message")
      "accountKeys") = true)
    (h2 : (forOfElems (getPropOpt (getPropOpt (getPropOpt tx "transaction") "message")
      "accountKeys")).all (fun k => (pubkeyToStringE k).isOk) = true)
    (h3 : loadedListOk (getPropOpt (getPropOpt tx "meta") "loadedAddresses") "writable" = true)
    (h4 : loadedListOk (getPropOpt (getPropOpt tx "meta") "loadedAddresses") "readonly" = true) :
    ∃ keys, getAllAccountKeysFromTxE tx = Except.ok keys := by
  obtain ⟨ks, hks⟩ := mapPubkeysE_ok _ (List.all_eq_true.mp h2)
  obtain ⟨ks1, hks1⟩ := loadedStep_ok _ "writable" h3 ks
  obtain ⟨ks2, hks2⟩ := loadedStep_ok _ "readonly" h4 ks1
  refine ⟨ks2, ?_⟩
  simp only [getAllAccountKeysFromTxE, iterElems_orJ_ok _ h1, hks, hks1, hks2]

/-- The inner-instructions loop of the compiled path succeeds on well-formed
items. -/
theorem processCompiledInner_ok (lib : LibCodec) (watch : String) (keys : List JVal) :
    ∀ (items : List JVal) (acc : Int × List RawTransfer),
      (∀ item ∈ items, innerItemOk item = true) →
      ∃ r, processCompiledInner lib watch keys items acc = Except.ok r := by
  intro items
  induction items with
  | nil => exact fun acc _ => ⟨acc, rfl⟩
  | cons item rest ih =>
    intro acc h
    have h1 := h item (List.mem_cons_self _ _)
    rw [innerItemOk, Bool.and_eq_true] at h1
    obtain ⟨hnn, hfo⟩ := h1
    rw [getPropOpt_eq_getMember _ _ hnn] at hfo
    obtain ⟨r, hr⟩ := ih ((forOfElems (getMember item "instructions")).foldl
      (compiledStep lib watch keys) acc) (fun i hi => h i (List.mem_cons_of_mem _ hi))
    refine ⟨r, ?_⟩
    simp only [processCompiledInner, getProp_ok _ _ hnn, iterElems_orJ_ok _ hfo]
    exact hr

/-- The parsed-path extractor succeeds on well-formed transactions. -/
theorem extractTransfersFromParsedE_ok (tx : JVal) (watch : String)
    (h : wfParsedTx tx = true) : ∃ l, extractTransfersFromParsedE tx watch = Except.ok l := by
  simp only [wfParsedTx, Bool.and_eq_true] at h
  obtain ⟨⟨h1, h2⟩, h3⟩ := h
  obtain ⟨l, hl⟩ := processParsedInner_ok watch
    (forOfElems (getPropOpt (getPropOpt tx "meta") "innerInstructions"))
    ((forOfElems (getPropOpt (getPropOpt (getPropOpt tx "transaction") "message")
      "instructions")).foldl (handleParsedIx watch) [])
    (List.all_eq_true.mp h3)
  refine ⟨l, ?_⟩
  simp only [extractTransfersFromParsedE, iterElems_orJ_ok _ h1, iterElems_orJ_ok _ h2]
  exact hl

/-- The compiled-path extractor succeeds on well-formed transactions. -/
theorem decodeSystemTransfersOutWithSumE_ok (lib : LibCodec) (tx : JVal) (watch : String)
    (h : wfCompiledTx tx = true) :
    ∃ r, decodeSystemTransfersOutWithSumE lib tx watch = Except.ok r := by
  by_cases hmm : (truthy (getPropOpt (getPropOpt tx "transaction") "message") &&
      truthy (getPropOpt tx "meta")) = true
  · rw [wfCompiledTx] at h
    simp only [hmm, Bool.not_true, Bool.false_or, Bool.and_eq_true] at h
    obtain ⟨⟨⟨⟨⟨⟨hak, hpk⟩, hwr⟩, hrd⟩, hout⟩, hinn⟩, hitems⟩ := h
    obtain ⟨keys, hkeys⟩ := getAllAccountKeysFromTxE_ok tx hak hpk hwr hrd
    obtain ⟨r, hr⟩ := processCompiledInner_ok lib watch keys
      (forOfElems (getMember (getPropOpt tx "meta") "innerInstructions"))
      (((forOfElems (getMember (getPropOpt (getPropOpt tx "transaction") "message")
        "instructions"))).foldl (compiledStep lib watch keys) (0, []))
      (List.all_eq_true.mp hitems)
    refine ⟨r, ?_⟩
    simp only [decodeSystemTransfersOutWithSumE, hmm, if_true, hkeys,
      iterElems_orJ_ok _ hout, iterElems_orJ_ok _ hinn]
    exact hr
  · refine ⟨(0, []), ?_⟩
    simp only [decodeSystemTransfersOutWithSumE]
    rw [if_neg hmm]

/-- C7 amended: both extraction paths are total and return a (possibly
empty) event list on every transaction in the well-formedness classes
`wfParsedTx` / `wfCompiledTx` (instruction containers falsy or lists, no
nullish entry inside `meta.innerInstructions`, stringifiable account keys,
iterable guarded loaded-address lists); outside these classes the undotted
`innerItem.instructions` reads and the `for...of` iterations throw a
`TypeError` (see the counterexample), suppressed only by the `try`/`catch` of
each caller. -/
theorem extraction_total_amended :
    (∀ (tx : JVal) (watch : String), wfParsedTx tx = true →
      ∃ l, extractTransfersFromParsedE tx watch = Except.ok l) ∧
    (∀ (lib : LibCodec) (tx : JVal) (watch : String), wfCompiledTx tx = true →
      ∃ r, decodeSystemTransfersOutWithSumE lib tx watch = Except.ok r) :=
  ⟨fun tx watch h => extractTransfersFromParsedE_ok tx watch h,
    fun lib tx watch h => decodeSystemTransfersOutWithSumE_ok lib tx watch h⟩

/-- C7 witness: the amended theorem applied to the nullish transaction. -/
theorem extraction_total_amended_witness :
    (wfParsedTx JVal.jnull = true ∧
      ∃ l, extractTransfersFromParsedE JVal.jnull "w" = Except.ok l) ∧
    (wfCompiledTx JVal.jnull = true ∧
      ∃ r, decodeSystemTransfersOutWithSumE failLib JVal.jnull "w" = Except.ok r) :=
  ⟨⟨by decide, extraction_total_amended.1 JVal.jnull "w" (by decide)⟩,
    ⟨by decide, extraction_total_amended.2 failLib JVal.jnull "w" (by decide)⟩⟩

/-- C7 counterexample: a `null` entry inside `meta.innerInstructions` makes
the parsed extractor throw (the plain `innerItem.instructions` read), a
truthy non-list `message.instructions` makes it throw at the `for...of`,
and the compiled decoder throws on the same `null` inner entry as well as on
an account key carrying a truthy non-callable `toBase58` data field (the
`k.toBase58()` call of `pubkeyToString`, outside any `try`/`catch`). -/
theorem extraction_total_cex :
    (extractTransfersFromParsedE parsedTxInnerNull "w").isOk = false ∧
    (extractTransfersFromParsedE parsedTxBadOuter "w").isOk = false ∧
    (decodeSystemTransfersOutWithSumE failLib rawTxInnerNull "w").isOk = false ∧
    (decodeSystemTransfersOutWithSumE failLib rawTxBadToBase58 "w").isOk = false := by
  refine ⟨by decide, by decide, by decide, by decide⟩
